import Mathlib

/-!
Verification of the chunmi cooker wy3 integration
(`miio/integrations/chunmi/cooker/cooker_wy3.py`).

The development embeds the cooking-profile codec (`Wy3CookerProfile`),
the temperature-history decoder (`TemperatureHistory`) and the numeric
status-view accessors (`CookerStatus`) as executable Lean functions over
`Nat`/`Int`/`List Nat`, with machine bytes represented as naturals below
256 and all masking written out explicitly.
-/

namespace CookerWy3

/-! ## Hex codec

`bytearray.fromhex` / `bytearray.hex`, restricted to plain hex-digit
strings (no embedded whitespace), which is the domain all profile and
temperature strings live in. -/

/-- Value of one hex digit character (`0`-`9`, `a`-`f`, `A`-`F`);
`none` for any other character. -/
def hexDigit (c : Char) : Option Nat :=
  if 48 ≤ c.toNat ∧ c.toNat ≤ 57 then some (c.toNat - 48)
  else if 97 ≤ c.toNat ∧ c.toNat ≤ 102 then some (c.toNat - 87)
  else if 65 ≤ c.toNat ∧ c.toNat ≤ 70 then some (c.toNat - 55)
  else none

/-- Decode a character list two digits at a time into bytes, failing on
odd length or a non-hex character (python raises `ValueError`). -/
def hexPairs : List Char → Option (List Nat)
  | [] => some []
  | [_] => none
  | c1 :: c2 :: rest =>
    match hexDigit c1, hexDigit c2, hexPairs rest with
    | some d1, some d2, some bs => some ((16 * d1 + d2) :: bs)
    | _, _, _ => none

/-- `bytearray.fromhex` on a plain hex string. -/
def hexDecode (s : String) : Option (List Nat) := hexPairs s.data

/-- Lower-case hex digit character for a value below 16 (`%02x` pieces). -/
def digitChar (d : Nat) : Char :=
  if d < 10 then Char.ofNat (48 + d) else Char.ofNat (87 + d)

/-- `bytearray.hex`: two lower-case digits per byte. -/
def hexEncode : List Nat → List Char
  | [] => []
  | b :: rest => digitChar (b / 16) :: digitChar (b % 16) :: hexEncode rest

/-! ## Checksum engine

Modelled from the spec: the source delegates to the external `crc`
library (`crc.Calculator(crc.Crc16.CCITT)`, re-verified against an
explicit `crc.Configuration(width=16, polynomial=0x1021, init_value=0,
final_xor_value=0, reverse_input=False, reverse_output=False)`), whose
code is not part of this repository.  The spec pins the algorithm down:
a 16-bit CRC with polynomial 0x1021, zero initial value, zero final
XOR, no input/output reflection, bytes processed most significant bit
first. -/

/-- One CRC round: shift the 16-bit register left and fold in the
polynomial when the bit shifted out was set. -/
def crcRound (c : Nat) : Nat :=
  if c &&& 0x8000 ≠ 0 then ((c <<< 1) ^^^ 0x1021) &&& 0xFFFF
  else (c <<< 1) &&& 0xFFFF

/-- Fold one input byte into the running CRC register (MSB first). -/
def crcByte (c b : Nat) : Nat := crcRound^[8] (c ^^^ (b <<< 8))

/-- CRC-16/CCITT of a byte sequence, initial value 0, no final XOR. -/
def crc16 (bs : List Nat) : Nat := bs.foldl crcByte 0

/-- Big-endian two-byte encoding of a CRC value, as built in
`calc_checksum`: `checksum[0] = (_crc >> 8) & 0xFF`,
`checksum[1] = _crc & 0xFF`. -/
def checksumBytes (c : Nat) : List Nat := [(c >>> 8) &&& 0xFF, c &&& 0xFF]

/-- `Wy3CookerProfile.calc_checksum` as a function of the payload bytes.
The python method also asserts that the re-verified CRC of
`profile_bytes + checksum` is zero; `crc16_append_checksum` below proves
the assertion can never fire, so the total function is faithful. -/
def calc_checksum (profile_bytes : List Nat) : List Nat :=
  checksumBytes (crc16 profile_bytes)

/-! ## Cooking profile codec -/

/-- In-memory state of `Wy3CookerProfile`: the mutable payload
`bytearray` (20 bytes on real profiles) and the stored 2-byte checksum
trailer. -/
structure Wy3CookerProfile where
  profile_bytes : List Nat
  checksum : List Nat
deriving DecidableEq, Repr

namespace Wy3CookerProfile

/-- `self.profile_bytes[i]`.  Python would raise `IndexError` out of
range; every use below is guarded by the well-formedness predicate
`wf`, under which the default is never taken. -/
def byteAt (p : Wy3CookerProfile) (i : Nat) : Nat := p.profile_bytes.getD i 0

/-- Well-formed payload: the fixed 20-byte layout, each entry a byte.
(`bytearray` elements are always below 256.) -/
def wf (p : Wy3CookerProfile) : Prop :=
  p.profile_bytes.length = 20 ∧ ∀ b ∈ p.profile_bytes, b < 256

instance (p : Wy3CookerProfile) : Decidable p.wf := by
  unfold wf; infer_instance

/-- Write one payload byte (`self.profile_bytes[i] = v`). -/
def setByte (p : Wy3CookerProfile) (i v : Nat) : Wy3CookerProfile :=
  { p with profile_bytes := p.profile_bytes.set i v }

/-- `get_menu_id`: the source concatenates the zero-padded hex digits of
bytes 3..6 and parses the result base 16; for byte values below 256
(always true of a `bytearray`) that is exactly this big-endian value. -/
def get_menu_id (p : Wy3CookerProfile) : Nat :=
  ((p.byteAt 3 * 256 + p.byteAt 4) * 256 + p.byteAt 5) * 256 + p.byteAt 6

/-- `get_cook_time_max`, in minutes. -/
def get_cook_time_max (p : Wy3CookerProfile) : Nat :=
  p.byteAt 10 * 60 + p.byteAt 11

/-- `get_cook_time_min`, in minutes. -/
def get_cook_time_min (p : Wy3CookerProfile) : Nat :=
  p.byteAt 12 * 60 + p.byteAt 13

/-- `is_can_schedule`: capability bit 0x40 of the flag byte. -/
def is_can_schedule (p : Wy3CookerProfile) : Bool :=
  p.byteAt 7 &&& 0x40 != 0

/-- `is_can_set_auto_keep_warm`: capability bit 0x20 of the flag byte. -/
def is_can_set_auto_keep_warm (p : Wy3CookerProfile) : Bool :=
  p.byteAt 7 &&& 0x20 != 0

/-- `is_can_set_duration`: max cook time strictly above min cook time. -/
def is_can_set_duration (p : Wy3CookerProfile) : Bool :=
  p.get_cook_time_max > p.get_cook_time_min

/-- `is_can_choose_rice`: menu id in `[2, 1]`. -/
def is_can_choose_rice (p : Wy3CookerProfile) : Bool :=
  [2, 1].contains p.get_menu_id

/-- `is_can_config_taste`: menu id equals 1. -/
def is_can_config_taste (p : Wy3CookerProfile) : Bool :=
  p.get_menu_id == 1

/-- `get_duration`, minutes: hours byte 8, minutes-remainder byte 9. -/
def get_duration (p : Wy3CookerProfile) : Nat :=
  p.byteAt 8 * 60 + p.byteAt 9

/-- `set_duration`: silently ignored unless `is_can_set_duration`; the
requested minutes are clamped to `[min, max]`.  The clamped value is at
least `get_cook_time_min ≥ 0`, so python's floor `//` and `%` on it
agree with the natural-number operations used here. -/
def set_duration (p : Wy3CookerProfile) (minutes : Int) : Wy3CookerProfile :=
  if !p.is_can_set_duration then p
  else
    let max_minutes : Int := p.get_cook_time_max
    let min_minutes : Int := p.get_cook_time_min
    let m : Nat := (max min_minutes (min max_minutes minutes)).toNat
    (p.setByte 8 ((m / 60) &&& 0xFF)).setByte 9 (m % 60)

/-- `get_schedule_enabled`: bit 0x80 of byte 14. -/
def get_schedule_enabled (p : Wy3CookerProfile) : Bool :=
  p.byteAt 14 &&& 0x80 == 0x80

/-- `set_schedule_enabled`. -/
def set_schedule_enabled (p : Wy3CookerProfile) (enabled : Bool) : Wy3CookerProfile :=
  if enabled then p.setByte 14 (p.byteAt 14 ||| 0x80)
  else p.setByte 14 (p.byteAt 14 &&& 0x7F)

/-- `get_schedule_duration`, minutes, masking out the two flag bits. -/
def get_schedule_duration (p : Wy3CookerProfile) : Nat :=
  (p.byteAt 14 &&& 0x7F) * 60 + (p.byteAt 15 &&& 0x7F)

/-- `set_schedule_duration`: silently ignored unless `is_can_schedule`;
otherwise writes hours/minutes into bytes 14/15 keeping bit 0x80 of
each, then sets the schedule-enabled flag.  Duration is taken as a
natural number: every call site passes a positive minute count. -/
def set_schedule_duration (p : Wy3CookerProfile) (duration : Nat) : Wy3CookerProfile :=
  if !p.is_can_schedule then p
  else
    let p1 := p.setByte 14 ((p.byteAt 14 &&& 0x80) ||| ((duration / 60) &&& 0xFF))
    let p2 := p1.setByte 15 ((duration % 60 ||| (p1.byteAt 15 &&& 0x80)) &&& 0xFF)
    p2.set_schedule_enabled true

/-- `get_auto_keep_warm`: bit 0x80 of byte 15. -/
def get_auto_keep_warm (p : Wy3CookerProfile) : Bool :=
  p.byteAt 15 &&& 0x80 == 0x80

/-- `set_auto_keep_warm`: silently ignored unless
`is_can_set_auto_keep_warm`. -/
def set_auto_keep_warm (p : Wy3CookerProfile) (enabled : Bool) : Wy3CookerProfile :=
  if !p.is_can_set_auto_keep_warm then p
  else if enabled then p.setByte 15 (p.byteAt 15 ||| 0x80)
  else p.setByte 15 (p.byteAt 15 &&& 0x7F)

/-- `get_rice_id`: big-endian 16-bit value of bytes 17-18. -/
def get_rice_id (p : Wy3CookerProfile) : Nat :=
  (p.byteAt 17 <<< 8) + p.byteAt 18

/-- `set_rice_id`: silently ignored unless `is_can_choose_rice`; an id
above 0xFFFF wraps to 0. -/
def set_rice_id (p : Wy3CookerProfile) (riceId : Nat) : Wy3CookerProfile :=
  if !p.is_can_choose_rice then p
  else
    let r := if riceId > 0xFFFF then 0 else riceId
    (p.setByte 17 (r >>> 8)).setByte 18 (r &&& 0xFF)

/-- `get_taste`: byte 19. -/
def get_taste (p : Wy3CookerProfile) : Nat := p.byteAt 19

/-- `set_taste`: silently ignored unless `is_can_config_taste`; raises
`CookerException` (`none` here) when the index is outside `{0, 1, 2}`;
the raise happens before the assignment, so the payload is untouched on
the error path. -/
def set_taste (p : Wy3CookerProfile) (tasteIndex : Int) : Option Wy3CookerProfile :=
  if !p.is_can_config_taste then some p
  else if ¬(tasteIndex = 0 ∨ tasteIndex = 1 ∨ tasteIndex = 2) then none
  else some (p.setByte 19 tasteIndex.toNat)

/-- `is_valid`: stored trailer equals the recomputed checksum. -/
def is_valid (p : Wy3CookerProfile) : Bool :=
  p.checksum == calc_checksum p.profile_bytes

/-- `update_checksum`. -/
def update_checksum (p : Wy3CookerProfile) : Wy3CookerProfile :=
  { p with checksum := calc_checksum p.profile_bytes }

/-- `get_profile_hex`: recompute the checksum, then hex-encode
`profile_bytes + checksum`. -/
def get_profile_hex (p : Wy3CookerProfile) : String :=
  String.mk (hexEncode ((p.update_checksum).profile_bytes ++ (p.update_checksum).checksum))

end Wy3CookerProfile

/-- Outcome of `Wy3CookerProfile.__init__`: a constructed profile or one
of the exceptions the constructor can raise. -/
inductive ParseResult where
  /-- Construction succeeded. -/
  | ok (p : Wy3CookerProfile)
  /-- `CookerException("Invalid profile")`: hex string shorter than 5
  characters. -/
  | invalidProfile
  /-- `CookerException("Profile checksum error")`. -/
  | checksumError
  /-- `ValueError` from `bytearray.fromhex` (odd length or non-hex). -/
  | hexError
  /-- `CookerException` escaping from `set_taste` during construction. -/
  | tasteError
deriving DecidableEq, Repr

/-- `Wy3CookerProfile.__init__(profile_hex, duration, schedule,
auto_keep_warm, taste)`: length check on the hex string, decode, split
the two trailing bytes as the stored checksum, validate, then apply the
optional construction-time setters in source order. -/
def mkProfile (profile_hex : String) (duration : Option Int) (schedule : Option Int)
    (auto_keep_warm : Option Bool) (taste : Option Int) : ParseResult :=
  if profile_hex.length < 5 then .invalidProfile
  else
    match hexDecode profile_hex with
    | none => .hexError
    | some bs =>
      let p0 : Wy3CookerProfile :=
        { profile_bytes := bs.take (bs.length - 2), checksum := bs.drop (bs.length - 2) }
      if !p0.is_valid then .checksumError
      else
        let p1 := match duration with
          | some d => p0.set_duration d
          | none => p0
        let p2 := match schedule with
          | some s =>
            if s > (p1.get_duration : Int) ∧ s ≤ 1440 then p1.set_schedule_duration s.toNat
            else p1
          | none => p1
        let p3 := if auto_keep_warm = some true then p2.set_auto_keep_warm true else p2
        match taste with
        | some t =>
          match p3.set_taste t with
          | some p4 => .ok p4
          | none => .tasteError
        | none => .ok p3

/-- Construction from a hex string alone (all optional arguments at
their `None` defaults). -/
def parseProfile (profile_hex : String) : ParseResult :=
  mkProfile profile_hex none none none none

/-! ## Temperature history decoder -/

/-- `TemperatureHistory.__init__` composed with the `temperatures`
accessor: the `"0000"` sentinel and odd-length input both give an empty
sample list, an even-length input decodes one byte per digit pair
(`int(data[i:i+2], 16)`); a non-hex character raises `ValueError`
(`none`). -/
def TemperatureHistory.temperatures (data : String) : Option (List Nat) :=
  if data = "0000" then some []
  else if data.length % 2 = 0 then hexPairs data.data
  else some []

/-! ## Status view accessors

Each accessor is modelled as a function of the raw integer property
value it reads (missing-key behaviour is out of scope for the claims).
`int(x / 60)` on an integer number of seconds truncates the quotient
toward zero, which is `Int.tdiv`. -/

/-- `CookerStatus.remaining`: `int(int(data["left-time"]) / 60)`. -/
def CookerStatus.remaining (left_time : Int) : Int := left_time.tdiv 60

/-- `CookerStatus.cooking_delayed`: minutes before scheduled cooking,
`None` when the converted value is negative. -/
def CookerStatus.cooking_delayed (pre_left_time : Int) : Option Int :=
  let delay := pre_left_time.tdiv 60
  if 0 ≤ delay then some delay else none

/-- `CookerStatus.duration`: `int(data["cook-total-time"])`, returned as
is. -/
def CookerStatus.duration (cook_total_time : Int) : Int := cook_total_time

/-! ## Sample profiles used as concrete inputs -/

/-- A 20-byte payload with menu id 1, capability flags 0x60 (schedule
and auto-keep-warm), duration 30, max cook time 60, min cook time 10. -/
def samplePayload : List Nat :=
  [2, 18, 1, 0, 0, 0, 1, 0x60, 0, 30, 1, 0, 0, 10, 0, 0, 0, 0, 0, 1]

/-- `samplePayload` with a matching checksum trailer. -/
def sampleProfile : Wy3CookerProfile :=
  { profile_bytes := samplePayload, checksum := calc_checksum samplePayload }

/-- A payload with no capabilities: flag byte 0, menu id 9, max cook
time 0 = min cook time. -/
def noCapPayload : List Nat :=
  [2, 18, 1, 0, 0, 0, 9, 0, 0, 30, 0, 0, 0, 0, 0, 0, 0, 0, 0, 1]

/-- `noCapPayload` with a matching checksum trailer. -/
def noCapProfile : Wy3CookerProfile :=
  { profile_bytes := noCapPayload, checksum := calc_checksum noCapPayload }

/-- A payload whose max cook time is 255 h 255 min = 15555 minutes, so
that a clamped duration can exceed 255 hours. -/
def bigMaxPayload : List Nat :=
  [2, 18, 1, 0, 0, 0, 1, 0x60, 0, 30, 255, 255, 0, 0, 0, 0, 0, 0, 0, 1]

/-- `bigMaxPayload` with a matching checksum trailer. -/
def bigMaxProfile : Wy3CookerProfile :=
  { profile_bytes := bigMaxPayload, checksum := calc_checksum bigMaxPayload }

/-! ## Bitwise helper lemmas -/

theorem and_two_pow_eq_zero_iff (x n : Nat) : x &&& 2 ^ n = 0 ↔ x.testBit n = false := by
  constructor
  · intro h
    have h2 := congrArg (fun y => y.testBit n) h
    simpa [Nat.testBit_and, Nat.testBit_two_pow_self] using h2
  · intro h
    apply Nat.eq_of_testBit_eq
    intro i
    simp only [Nat.testBit_and, Nat.zero_testBit]
    by_cases hni : n = i
    · subst hni; simp [h]
    · simp [Nat.testBit_two_pow_of_ne hni]

theorem and_two_pow_eq_zero_of_lt {x n : Nat} (h : x < 2 ^ n) : x &&& 2 ^ n = 0 :=
  (and_two_pow_eq_zero_iff x n).mpr (Nat.testBit_lt_two_pow h)

/-- Absorption: `(x &&& y) ||| y = y`. -/
theorem and_or_absorb (x y : Nat) : (x &&& y) ||| y = y := by
  apply Nat.eq_of_testBit_eq
  intro i
  simp only [Nat.testBit_or, Nat.testBit_and]
  cases y.testBit i <;> simp

/-- Removing the low byte of a 16-bit value by shifting, then xor-ing it
back in, leaves exactly the low byte. -/
theorem xor_shiftRight_shiftLeft (c : Nat) : c ^^^ ((c >>> 8) <<< 8) = c &&& 0xFF := by
  apply Nat.eq_of_testBit_eq
  intro i
  have h255 : (0xFF : Nat) = 2 ^ 8 - 1 := by norm_num
  simp only [Nat.testBit_xor, Nat.testBit_shiftLeft, Nat.testBit_shiftRight,
    Nat.testBit_and, h255, Nat.testBit_two_pow_sub_one]
  by_cases h8 : 8 ≤ i
  · have : 8 + (i - 8) = i := by omega
    simp [h8, this, Nat.lt_irrefl, show ¬ i < 8 by omega]
  · simp [h8, show i < 8 by omega]

/-! ## CRC register facts -/

theorem crcRound_lt (c : Nat) : crcRound c < 65536 := by
  unfold crcRound
  split
  · exact Nat.lt_succ_of_le Nat.and_le_right
  · exact Nat.lt_succ_of_le Nat.and_le_right

theorem crcByte_lt (c b : Nat) : crcByte c b < 65536 := by
  unfold crcByte
  rw [show (8 : Nat) = 7 + 1 from rfl, Function.iterate_succ_apply']
  exact crcRound_lt _

theorem foldl_crcByte_lt : ∀ (l : List Nat) (c : Nat), c < 65536 →
    l.foldl crcByte c < 65536
  | [], _, hc => hc
  | b :: rest, c, _ => foldl_crcByte_lt rest (crcByte c b) (crcByte_lt c b)

theorem crc16_lt (bs : List Nat) : crc16 bs < 65536 :=
  foldl_crcByte_lt bs 0 (by norm_num)

/-- The branch test of `crcRound` reads the top bit of the 16-bit
register. -/
theorem crcRound_cond_iff {c : Nat} (hc : c < 65536) :
    (c &&& 0x8000 ≠ 0) ↔ 32768 ≤ c := by
  have h15 : (0x8000 : Nat) = 2 ^ 15 := by norm_num
  rw [h15, Ne, and_two_pow_eq_zero_iff, Nat.testBit_to_div_mod]
  have : (2 : Nat) ^ 15 = 32768 := by norm_num
  rw [this]
  constructor
  · intro h
    by_contra hlt
    have : c / 32768 = 0 := by omega
    simp [this] at h
  · intro h hdec
    have : c / 32768 = 1 := by omega
    simp [this] at hdec

theorem crcRound_of_lo {c : Nat} (h : ¬ 32768 ≤ c) (hc : c < 65536) :
    crcRound c = 2 * c := by
  have hcond : ¬ (c &&& 0x8000 ≠ 0) := by rw [crcRound_cond_iff hc]; exact h
  have hmask : (0xFFFF : Nat) = 2 ^ 16 - 1 := by norm_num
  unfold crcRound
  rw [if_neg hcond, Nat.shiftLeft_eq, hmask, Nat.and_pow_two_sub_one_eq_mod]
  have : c * 2 ^ 1 = 2 * c := by ring
  rw [this, Nat.mod_eq_of_lt (by omega)]

theorem crcRound_of_hi {c : Nat} (h : 32768 ≤ c) (hc : c < 65536) :
    crcRound c = ((2 * c) % 65536) ^^^ 0x1021 := by
  have hcond : c &&& 0x8000 ≠ 0 := (crcRound_cond_iff hc).mpr h
  have hmask : (0xFFFF : Nat) = 2 ^ 16 - 1 := by norm_num
  unfold crcRound
  rw [if_pos hcond, hmask, Nat.and_xor_distrib_right, Nat.and_pow_two_sub_one_eq_mod,
    Nat.and_pow_two_sub_one_eq_mod, Nat.shiftLeft_eq]
  have h2 : c * 2 ^ 1 = 2 * c := by ring
  have h3 : (0x1021 : Nat) % 2 ^ 16 = 0x1021 := by norm_num
  rw [h2, h3]

/-- Cancellation for xor on the right. -/
theorem xor_right_cancel {x y z : Nat} (h : x ^^^ z = y ^^^ z) : x = y := by
  have h2 := congrArg (fun w => w ^^^ z) h
  simpa [Nat.xor_assoc] using h2

/-- Cancellation for xor on the left. -/
theorem xor_left_cancel {x y z : Nat} (h : z ^^^ x = z ^^^ y) : x = y := by
  have h2 := congrArg (fun w => z ^^^ w) h
  simpa [← Nat.xor_assoc] using h2

/-- One CRC round is injective on the 16-bit register; together with
`crcByte_state_inj` this is what makes the checksum detect any byte
change. -/
theorem crcRound_inj {a b : Nat} (ha : a < 65536) (hb : b < 65536)
    (h : crcRound a = crcRound b) : a = b := by
  by_cases h1 : 32768 ≤ a <;> by_cases h2 : 32768 ≤ b
  · rw [crcRound_of_hi h1 ha, crcRound_of_hi h2 hb] at h
    have := xor_right_cancel h
    omega
  · rw [crcRound_of_hi h1 ha, crcRound_of_lo h2 hb] at h
    have hodd : ((2 * a % 65536) ^^^ 0x1021) % 2 = 1 := by
      rw [Nat.xor_mod_two_eq_one]
      omega
    omega
  · rw [crcRound_of_lo h1 ha, crcRound_of_hi h2 hb] at h
    have hodd : ((2 * b % 65536) ^^^ 0x1021) % 2 = 1 := by
      rw [Nat.xor_mod_two_eq_one]
      omega
    omega
  · rw [crcRound_of_lo h1 ha, crcRound_of_lo h2 hb] at h
    omega

theorem crcRound_iter_inj : ∀ (n : Nat) {a b : Nat}, a < 65536 → b < 65536 →
    crcRound^[n] a = crcRound^[n] b → a = b
  | 0, _, _, _, _, h => h
  | n + 1, a, b, ha, hb, h => by
    rw [Function.iterate_succ_apply, Function.iterate_succ_apply] at h
    exact crcRound_inj ha hb (crcRound_iter_inj n (crcRound_lt a) (crcRound_lt b) h)

theorem shiftLeft8_lt {b : Nat} (hb : b < 256) : b <<< 8 < 65536 := by
  rw [Nat.shiftLeft_eq]
  have : (2 : Nat) ^ 8 = 256 := by norm_num
  rw [this]
  omega

theorem xor_shiftLeft8_lt {c b : Nat} (hc : c < 65536) (hb : b < 256) :
    c ^^^ (b <<< 8) < 65536 := by
  have h16 : (65536 : Nat) = 2 ^ 16 := by norm_num
  rw [h16] at hc ⊢
  exact Nat.xor_lt_two_pow hc (by rw [← h16]; exact shiftLeft8_lt hb)

/-- `crcByte` is injective in the running state. -/
theorem crcByte_state_inj {c c' b : Nat} (hc : c < 65536) (hc' : c' < 65536)
    (hb : b < 256) (h : crcByte c b = crcByte c' b) : c = c' := by
  unfold crcByte at h
  have := crcRound_iter_inj 8 (xor_shiftLeft8_lt hc hb) (xor_shiftLeft8_lt hc' hb) h
  exact xor_right_cancel this

/-- `crcByte` is injective in the input byte. -/
theorem crcByte_byte_inj {c b b' : Nat} (hc : c < 65536) (hb : b < 256)
    (hb' : b' < 256) (h : crcByte c b = crcByte c b') : b = b' := by
  unfold crcByte at h
  have h2 := crcRound_iter_inj 8 (xor_shiftLeft8_lt hc hb) (xor_shiftLeft8_lt hc hb') h
  have h3 := xor_left_cancel h2
  rw [Nat.shiftLeft_eq, Nat.shiftLeft_eq] at h3
  have : (2 : Nat) ^ 8 = 256 := by norm_num
  rw [this] at h3
  omega

/-- Distinct running states stay distinct under any byte suffix. -/
theorem foldl_crcByte_ne : ∀ (l : List Nat) {c c' : Nat}, c < 65536 → c' < 65536 →
    (∀ x ∈ l, x < 256) → c ≠ c' → l.foldl crcByte c ≠ l.foldl crcByte c'
  | [], _, _, _, _, _, hne => hne
  | b :: rest, c, c', hc, hc', hl, hne => by
    simp only [List.foldl_cons]
    have hb : b < 256 := hl b (List.mem_cons_self b rest)
    have hrest : ∀ x ∈ rest, x < 256 := fun x hx => hl x (List.mem_cons_of_mem b hx)
    refine foldl_crcByte_ne rest (crcByte_lt c b) (crcByte_lt c' b) hrest ?_
    intro heq
    exact hne (crcByte_state_inj hc hc' hb heq)

/-- Overwriting one byte of the input with a different byte changes the
running CRC, whatever the starting state. -/
theorem foldl_crcByte_set_ne : ∀ (l : List Nat) (i : Nat) {v c : Nat}, c < 65536 →
    (∀ x ∈ l, x < 256) → i < l.length → v < 256 → v ≠ l.getD i 0 →
    (l.set i v).foldl crcByte c ≠ l.foldl crcByte c
  | [], i, _, _, _, _, hi, _, _ => by simp at hi
  | b :: rest, 0, v, c, hc, hl, _, hv, hne => by
    simp only [List.set_cons_zero, List.foldl_cons]
    have hb : b < 256 := hl b (List.mem_cons_self b rest)
    have hrest : ∀ x ∈ rest, x < 256 := fun x hx => hl x (List.mem_cons_of_mem b hx)
    refine foldl_crcByte_ne rest (crcByte_lt c v) (crcByte_lt c b) hrest ?_
    intro heq
    exact hne (by simpa using crcByte_byte_inj hc hv hb heq)
  | b :: rest, i + 1, v, c, hc, hl, hi, hv, hne => by
    simp only [List.set_cons_succ, List.foldl_cons]
    have hrest : ∀ x ∈ rest, x < 256 := fun x hx => hl x (List.mem_cons_of_mem b hx)
    exact foldl_crcByte_set_ne rest i (crcByte_lt c b) hrest (by simpa using hi) hv
      (by simpa using hne)

/-- The checksum engine detects any single-byte change of the payload. -/
theorem crc16_set_ne (l : List Nat) (i : Nat) {v : Nat} (hl : ∀ x ∈ l, x < 256)
    (hi : i < l.length) (hv : v < 256) (hne : v ≠ l.getD i 0) :
    crc16 (l.set i v) ≠ crc16 l :=
  foldl_crcByte_set_ne l i (by norm_num) hl hi hv hne

theorem checksumBytes_lt (c : Nat) : ∀ b ∈ checksumBytes c, b < 256 := by
  intro b hb
  simp only [checksumBytes, List.mem_cons, List.mem_singleton, List.not_mem_nil,
    or_false] at hb
  rcases hb with h | h <;> subst h <;> exact Nat.lt_succ_of_le Nat.and_le_right

theorem checksumBytes_inj {c c' : Nat} (hc : c < 65536) (hc' : c' < 65536)
    (h : checksumBytes c = checksumBytes c') : c = c' := by
  simp only [checksumBytes, List.cons.injEq, and_true] at h
  obtain ⟨h1, h2⟩ := h
  have e255 : (0xFF : Nat) = 2 ^ 8 - 1 := by norm_num
  rw [Nat.shiftRight_eq_div_pow, Nat.shiftRight_eq_div_pow, e255,
    Nat.and_pow_two_sub_one_eq_mod, Nat.and_pow_two_sub_one_eq_mod] at h1
  rw [e255, Nat.and_pow_two_sub_one_eq_mod, Nat.and_pow_two_sub_one_eq_mod] at h2
  have e8 : (2 : Nat) ^ 8 = 256 := by norm_num
  rw [e8] at h1 h2
  omega

/-! ## The assertion inside `calc_checksum` never fires

`calc_checksum` re-verifies that the CRC of `profile_bytes + checksum`
is zero and asserts the result.  This holds for every payload, so the
total model of `calc_checksum` is faithful to the python method. -/

set_option maxRecDepth 8192 in
/-- Core of the assertion, checked for all 256 values of the low CRC
byte. -/
theorem crcByte_self_cancel : ∀ t < 256, crcRound^[8] ((crcRound^[8] t) ^^^ (t <<< 8)) = 0 := by
  decide

/-- Appending the freshly computed big-endian checksum drives the
running CRC to zero: the `assert` in `calc_checksum` always passes. -/
theorem crc16_append_checksum (bs : List Nat) :
    crc16 (bs ++ checksumBytes (crc16 bs)) = 0 := by
  set c := crc16 bs with hc
  have hclt : c < 65536 := crc16_lt bs
  have hc8 : c >>> 8 < 256 := by
    rw [Nat.shiftRight_eq_div_pow]
    have : (2 : Nat) ^ 8 = 256 := by norm_num
    rw [this]; omega
  have hhi : (c >>> 8) &&& 0xFF = c >>> 8 := by
    have e255 : (0xFF : Nat) = 2 ^ 8 - 1 := by norm_num
    rw [e255, Nat.and_pow_two_sub_one_eq_mod]
    exact Nat.mod_eq_of_lt (by simpa using hc8)
  have hlo : c &&& 0xFF < 256 := Nat.lt_succ_of_le Nat.and_le_right
  have step : crc16 (bs ++ checksumBytes c) =
      crcByte (crcByte (crc16 bs) ((c >>> 8) &&& 0xFF)) (c &&& 0xFF) := by
    simp [crc16, checksumBytes, List.foldl_append]
  rw [step, ← hc, hhi]
  have hfirst : crcByte c (c >>> 8) = crcRound^[8] (c &&& 0xFF) := by
    unfold crcByte
    rw [xor_shiftRight_shiftLeft]
  rw [hfirst]
  have := crcByte_self_cancel (c &&& 0xFF) hlo
  unfold crcByte
  exact this

/-! ## Hex codec lemmas -/

theorem hexDigit_lt {c : Char} {d : Nat} (h : hexDigit c = some d) : d < 16 := by
  unfold hexDigit at h
  split at h
  · cases h; omega
  · split at h
    · cases h; omega
    · split at h
      · cases h; omega
      · cases h

theorem hexPairs_bytes_lt : ∀ {l : List Char} {bs : List Nat}, hexPairs l = some bs →
    ∀ b ∈ bs, b < 256
  | [], bs, h => by cases h; simp
  | [_], _, h => by cases h
  | c1 :: c2 :: rest, bs, h => by
    unfold hexPairs at h
    cases h1 : hexDigit c1 with
    | none => rw [h1] at h; cases h
    | some d1 =>
      cases h2 : hexDigit c2 with
      | none => rw [h1, h2] at h; cases h
      | some d2 =>
        cases h3 : hexPairs rest with
        | none => rw [h1, h2, h3] at h; cases h
        | some tl =>
          rw [h1, h2, h3] at h
          cases h
          intro b hb
          rcases List.mem_cons.mp hb with hb | hb
          · have hd1 := hexDigit_lt h1
            have hd2 := hexDigit_lt h2
            omega
          · exact hexPairs_bytes_lt h3 b hb

theorem hexPairs_length : ∀ {l : List Char} {bs : List Nat}, hexPairs l = some bs →
    l.length = 2 * bs.length
  | [], bs, h => by cases h; simp
  | [_], _, h => by cases h
  | c1 :: c2 :: rest, bs, h => by
    unfold hexPairs at h
    cases h1 : hexDigit c1 with
    | none => rw [h1] at h; cases h
    | some d1 =>
      cases h2 : hexDigit c2 with
      | none => rw [h1, h2] at h; cases h
      | some d2 =>
        cases h3 : hexPairs rest with
        | none => rw [h1, h2, h3] at h; cases h
        | some tl =>
          rw [h1, h2, h3] at h
          cases h
          have := hexPairs_length h3
          simp only [List.length_cons, this]
          omega

theorem hexDigit_digitChar : ∀ d < 16, hexDigit (digitChar d) = some d := by decide

theorem hexPairs_hexEncode : ∀ {bs : List Nat}, (∀ b ∈ bs, b < 256) →
    hexPairs (hexEncode bs) = some bs
  | [], _ => rfl
  | b :: rest, h => by
    have hb : b < 256 := h b (List.mem_cons_self b rest)
    have hrest : ∀ x ∈ rest, x < 256 := fun x hx => h x (List.mem_cons_of_mem b hx)
    have hd1 : hexDigit (digitChar (b / 16)) = some (b / 16) :=
      hexDigit_digitChar (b / 16) (by omega)
    have hd2 : hexDigit (digitChar (b % 16)) = some (b % 16) :=
      hexDigit_digitChar (b % 16) (by omega)
    simp only [hexEncode, hexPairs, hd1, hd2, hexPairs_hexEncode hrest]
    have : 16 * (b / 16) + b % 16 = b := by omega
    rw [this]

theorem hexEncode_length : ∀ (bs : List Nat), (hexEncode bs).length = 2 * bs.length
  | [] => rfl
  | _ :: rest => by
    simp only [hexEncode, List.length_cons, hexEncode_length rest]
    omega

/-- Even-length all-hex character lists always decode. -/
theorem hexPairs_total : ∀ (l : List Char), (∀ c ∈ l, (hexDigit c).isSome) →
    l.length % 2 = 0 → (hexPairs l).isSome
  | [], _, _ => rfl
  | [_], _, hlen => by simp at hlen
  | c1 :: c2 :: rest, h, hlen => by
    have h1 : (hexDigit c1).isSome := h c1 (by simp)
    have h2 : (hexDigit c2).isSome := h c2 (by simp)
    obtain ⟨d1, hd1⟩ := Option.isSome_iff_exists.mp h1
    obtain ⟨d2, hd2⟩ := Option.isSome_iff_exists.mp h2
    have hrest : (hexPairs rest).isSome := by
      refine hexPairs_total rest (fun c hc => h c (by simp [hc])) ?_
      simp only [List.length_cons] at hlen
      omega
    obtain ⟨tl, htl⟩ := Option.isSome_iff_exists.mp hrest
    simp [hexPairs, hd1, hd2, htl]

/-! ## Parse reduction and inversion -/

theorem string_length_data (s : String) : s.length = s.data.length := rfl

theorem hexDecode_length {s : String} {bs : List Nat} (h : hexDecode s = some bs) :
    s.length = 2 * bs.length := by
  rw [string_length_data]
  exact hexPairs_length h

theorem hexDecode_bytes_lt {s : String} {bs : List Nat} (h : hexDecode s = some bs) :
    ∀ b ∈ bs, b < 256 :=
  hexPairs_bytes_lt h

/-- Parsing the hex encoding of an explicit byte list of length at least
3 comes down to the checksum comparison. -/
theorem parseProfile_encode (bs : List Nat) (h : ∀ b ∈ bs, b < 256) (hlen : 3 ≤ bs.length) :
    parseProfile (String.mk (hexEncode bs)) =
      if bs.drop (bs.length - 2) = calc_checksum (bs.take (bs.length - 2))
      then .ok { profile_bytes := bs.take (bs.length - 2), checksum := bs.drop (bs.length - 2) }
      else .checksumError := by
  have hdec : hexDecode (String.mk (hexEncode bs)) = some bs := by
    unfold hexDecode
    simpa using hexPairs_hexEncode h
  have h5 : ¬ (String.mk (hexEncode bs)).length < 5 := by
    rw [string_length_data]
    simp only [String.data]
    rw [hexEncode_length]
    omega
  by_cases hcs : bs.drop (bs.length - 2) = calc_checksum (bs.take (bs.length - 2))
  · simp only [parseProfile, mkProfile, hdec, if_neg h5, Wy3CookerProfile.is_valid, hcs,
      beq_self_eq_true, Bool.not_true, Bool.false_eq_true, if_false, if_pos]
    simp
  · have hbeq : (bs.drop (bs.length - 2) == calc_checksum (bs.take (bs.length - 2))) = false :=
      beq_eq_false_iff_ne.mpr hcs
    simp only [parseProfile, mkProfile, hdec, if_neg h5, Wy3CookerProfile.is_valid, hbeq,
      Bool.not_false, if_true, if_neg hcs]

/-- What a successful plain parse tells us about the profile. -/
theorem parseProfile_ok_elim {s : String} {p : Wy3CookerProfile}
    (h : parseProfile s = .ok p) :
    ∃ bs, hexDecode s = some bs ∧ 5 ≤ s.length ∧ s.length = 2 * bs.length ∧
      p.profile_bytes = bs.take (bs.length - 2) ∧ p.checksum = bs.drop (bs.length - 2) ∧
      p.checksum = calc_checksum p.profile_bytes := by
  unfold parseProfile mkProfile at h
  split at h
  · cases h
  · next h5 =>
    cases hdec : hexDecode s with
    | none => rw [hdec] at h; cases h
    | some bs =>
      rw [hdec] at h
      dsimp only at h
      split at h
      · cases h
      · next hval =>
        cases h
        have hlen := hexDecode_length hdec
        refine ⟨bs, rfl, by omega, hlen, rfl, rfl, ?_⟩
        simp only [Bool.not_eq_true, Bool.not_eq_false] at hval
        simpa [Wy3CookerProfile.is_valid] using hval

/-- Byte-level consequences of a successful plain parse. -/
theorem parseProfile_ok_bytes {s : String} {p : Wy3CookerProfile}
    (h : parseProfile s = .ok p) :
    (∀ b ∈ p.profile_bytes, b < 256) ∧ 1 ≤ p.profile_bytes.length ∧
      p.checksum = calc_checksum p.profile_bytes ∧ p.checksum.length = 2 := by
  obtain ⟨bs, hdec, h5, hlen, hpb, hcs, hcalc⟩ := parseProfile_ok_elim h
  have hbs := hexDecode_bytes_lt hdec
  refine ⟨?_, ?_, hcalc, ?_⟩
  · rw [hpb]
    exact fun b hb => hbs b (List.take_subset _ _ hb)
  · rw [hpb, List.length_take]
    omega
  · rw [hcs, List.length_drop]
    omega

/-! ## Small list and byte helpers -/

theorem forall_mem_set {P : Nat → Prop} : ∀ {l : List Nat} {i v : Nat},
    (∀ x ∈ l, P x) → P v → ∀ x ∈ l.set i v, P x
  | [], _, _, _, _ => by simp
  | b :: rest, 0, v, hl, hv => by
    simp only [List.set_cons_zero]
    intro x hx
    rcases List.mem_cons.mp hx with hx | hx
    · rw [hx]; exact hv
    · exact hl x (List.mem_cons_of_mem b hx)
  | b :: rest, i + 1, v, hl, hv => by
    simp only [List.set_cons_succ]
    intro x hx
    rcases List.mem_cons.mp hx with hx | hx
    · rw [hx]; exact hl b (List.mem_cons_self b rest)
    · exact forall_mem_set (fun y hy => hl y (List.mem_cons_of_mem b hy)) hv x hx

theorem getD_mem_of_lt {l : List Nat} {i : Nat} (hi : i < l.length) :
    l.getD i 0 ∈ l := by
  rw [List.getD_eq_getElem?_getD, List.getElem?_eq_getElem hi]
  exact List.getElem_mem hi

theorem xor_ne_self {a m : Nat} (hm : m ≠ 0) : a ^^^ m ≠ a := by
  intro h
  apply hm
  have h2 := congrArg (fun w => a ^^^ w) h
  simpa [← Nat.xor_assoc] using h2

theorem one_shiftLeft_lt_256 {j : Nat} (hj : j < 8) : 1 <<< j < 256 := by
  rw [Nat.shiftLeft_eq, one_mul]
  calc 2 ^ j ≤ 2 ^ 7 := Nat.pow_le_pow_right (by norm_num) (by omega)
  _ < 256 := by norm_num

theorem one_shiftLeft_ne_zero (j : Nat) : 1 <<< j ≠ 0 := by
  rw [Nat.shiftLeft_eq, one_mul]
  exact Nat.pos_iff_ne_zero.mp (Nat.pos_pow_of_pos j (by norm_num))

namespace Wy3CookerProfile

theorem byteAt_setByte_self (p : Wy3CookerProfile) {i : Nat} (v : Nat)
    (h : i < p.profile_bytes.length) : (p.setByte i v).byteAt i = v := by
  simp [byteAt, setByte, List.getElem?_set_self h]

theorem byteAt_setByte_ne (p : Wy3CookerProfile) {i j : Nat} (v : Nat)
    (h : i ≠ j) : (p.setByte i v).byteAt j = p.byteAt j := by
  simp [byteAt, setByte, List.getElem?_set_ne h]

theorem length_setByte (p : Wy3CookerProfile) (i v : Nat) :
    (p.setByte i v).profile_bytes.length = p.profile_bytes.length := by
  simp [setByte]

end Wy3CookerProfile

/-! ## Claim theorems -/

/-- C1.  For every hex string that parses into a profile, serializing
with `get_profile_hex` yields a string that passes its own checksum
validation and re-parses to the very same profile, with every payload
byte (hence every derived field) identical; the checksum update inside
serialization is idempotent with respect to parse. -/
theorem wy3_profile_roundtrip (s : String) (p : Wy3CookerProfile)
    (hp : parseProfile s = .ok p) :
    parseProfile p.get_profile_hex = .ok p ∧ p.is_valid = true := by
  obtain ⟨hbytes, hplen, hcalc, hcslen⟩ := parseProfile_ok_bytes hp
  have hser : p.get_profile_hex =
      String.mk (hexEncode (p.profile_bytes ++ calc_checksum p.profile_bytes)) := by
    simp [Wy3CookerProfile.get_profile_hex, Wy3CookerProfile.update_checksum]
  have hL : ∀ b ∈ p.profile_bytes ++ calc_checksum p.profile_bytes, b < 256 := by
    intro b hb
    rcases List.mem_append.mp hb with hb | hb
    · exact hbytes b hb
    · exact checksumBytes_lt _ b hb
  have hLlen : (p.profile_bytes ++ calc_checksum p.profile_bytes).length =
      p.profile_bytes.length + 2 := by
    simp [calc_checksum, checksumBytes]
  have htake : (p.profile_bytes ++ calc_checksum p.profile_bytes).take
      ((p.profile_bytes ++ calc_checksum p.profile_bytes).length - 2) = p.profile_bytes :=
    List.take_left' (by omega)
  have hdrop : (p.profile_bytes ++ calc_checksum p.profile_bytes).drop
      ((p.profile_bytes ++ calc_checksum p.profile_bytes).length - 2) =
        calc_checksum p.profile_bytes :=
    List.drop_left' (by omega)
  rw [hser, parseProfile_encode _ hL (by omega), htake, hdrop, if_pos rfl]
  constructor
  · obtain ⟨pb, pc⟩ := p
    simp only at hcalc
    rw [hcalc]
  · simp [Wy3CookerProfile.is_valid, hcalc]

set_option maxRecDepth 100000 in
/-- C1 witness: the round trip evaluated on a concrete valid profile. -/
theorem wy3_profile_roundtrip_witness :
    parseProfile (Wy3CookerProfile.get_profile_hex sampleProfile) = .ok sampleProfile ∧
      sampleProfile.is_valid = true :=
  wy3_profile_roundtrip "0212010000000160001e0100000a00000000000181a1" sampleProfile
    (by decide)

/-- C2.  Flipping any single bit of any payload byte of a parsed profile
while keeping the stored 2-byte trailer makes the parse fail with the
checksum-mismatch error: the CRC (polynomial 0x1021, zero init, zero
final XOR, unreflected) detects every single-bit payload change. -/
theorem wy3_checksum_bitflip (s : String) (p : Wy3CookerProfile) (i j : Nat)
    (hp : parseProfile s = .ok p) (hi : i < p.profile_bytes.length) (hj : j < 8) :
    parseProfile (String.mk (hexEncode
      (p.profile_bytes.set i (p.profile_bytes.getD i 0 ^^^ (1 <<< j)) ++ p.checksum))) =
      .checksumError := by
  obtain ⟨hbytes, hplen, hcalc, hcslen⟩ := parseProfile_ok_bytes hp
  have hb0 : p.profile_bytes.getD i 0 < 256 := hbytes _ (getD_mem_of_lt hi)
  have hflip_byte : p.profile_bytes.getD i 0 ^^^ (1 <<< j) < 256 := by
    have h256 : (256 : Nat) = 2 ^ 8 := by norm_num
    rw [h256]
    exact Nat.xor_lt_two_pow (by omega) (by rw [← h256]; exact one_shiftLeft_lt_256 hj)
  set flipped := p.profile_bytes.set i (p.profile_bytes.getD i 0 ^^^ (1 <<< j)) with hflip
  have hflen : flipped.length = p.profile_bytes.length := by simp [hflip]
  have hL : ∀ b ∈ flipped ++ p.checksum, b < 256 := by
    intro b hb
    rcases List.mem_append.mp hb with hb | hb
    · exact forall_mem_set hbytes hflip_byte b hb
    · rw [hcalc] at hb
      exact checksumBytes_lt _ b hb
  have hLlen : (flipped ++ p.checksum).length = p.profile_bytes.length + 2 := by
    simp [hflen, hcslen]
  have htake : (flipped ++ p.checksum).take ((flipped ++ p.checksum).length - 2) = flipped :=
    List.take_left' (by omega)
  have hdrop : (flipped ++ p.checksum).drop ((flipped ++ p.checksum).length - 2) =
      p.checksum :=
    List.drop_left' (by omega)
  rw [parseProfile_encode _ hL (by omega), htake, hdrop, if_neg ?_]
  intro hcontr
  have hcrc_ne : crc16 flipped ≠ crc16 p.profile_bytes :=
    crc16_set_ne p.profile_bytes i hbytes hi hflip_byte
      (xor_ne_self (one_shiftLeft_ne_zero j))
  rw [hcalc] at hcontr
  exact hcrc_ne (checksumBytes_inj (crc16_lt _) (crc16_lt _) hcontr.symm)

set_option maxRecDepth 100000 in
/-- C2 witness: flipping bit 0 of payload byte 0 of a concrete valid
profile is rejected with the checksum error. -/
theorem wy3_checksum_bitflip_witness :
    parseProfile (String.mk (hexEncode
      (sampleProfile.profile_bytes.set 0
        (sampleProfile.profile_bytes.getD 0 0 ^^^ (1 <<< 0)) ++ sampleProfile.checksum))) =
      .checksumError :=
  wy3_checksum_bitflip "0212010000000160001e0100000a00000000000181a1" sampleProfile 0 0
    (by decide) (by decide) (by decide)

set_option maxRecDepth 100000 in
/-- C3 counterexample: `"000000"` decodes to only 3 bytes, which is
fewer than 5, yet construction does not raise the "invalid profile"
format error: the source checks the length of the hex string, not of
the decoded bytes, and this input parses successfully. -/
theorem wy3_parse_short_decoded_ok :
    hexDecode "000000" = some [0, 0, 0] ∧ ([0, 0, 0] : List Nat).length < 5 ∧
      parseProfile "000000" = .ok { profile_bytes := [0], checksum := [0, 0] } := by
  decide

/-- C3 amended: construction raises "invalid profile" iff the hex
STRING has fewer than 5 characters (for decodable input, fewer than 3
decoded bytes); otherwise it raises the checksum error iff the
recomputed CRC of all but the trailing 2 bytes disagrees with the
trailer, and succeeds iff it agrees. -/
theorem wy3_parse_error_cases (s : String) (bs : List Nat) (hdec : hexDecode s = some bs) :
    ((parseProfile s = .invalidProfile) ↔ s.length < 5) ∧
    (5 ≤ s.length →
      ((parseProfile s = .checksumError) ↔
        bs.drop (bs.length - 2) ≠ calc_checksum (bs.take (bs.length - 2))) ∧
      ((parseProfile s = .ok { profile_bytes := bs.take (bs.length - 2),
                               checksum := bs.drop (bs.length - 2) }) ↔
        bs.drop (bs.length - 2) = calc_checksum (bs.take (bs.length - 2)))) := by
  by_cases h5 : s.length < 5
  · constructor
    · simp [parseProfile, mkProfile, h5]
    · intro h
      omega
  · have hred : parseProfile s =
        if bs.drop (bs.length - 2) = calc_checksum (bs.take (bs.length - 2))
        then .ok { profile_bytes := bs.take (bs.length - 2),
                   checksum := bs.drop (bs.length - 2) }
        else .checksumError := by
      by_cases hcs : bs.drop (bs.length - 2) = calc_checksum (bs.take (bs.length - 2))
      · simp only [parseProfile, mkProfile, hdec, if_neg h5, Wy3CookerProfile.is_valid,
          hcs, beq_self_eq_true, Bool.not_true, Bool.false_eq_true, if_false, if_pos]
        simp
      · have hbeq : (bs.drop (bs.length - 2) ==
            calc_checksum (bs.take (bs.length - 2))) = false :=
          beq_eq_false_iff_ne.mpr hcs
        simp only [parseProfile, mkProfile, hdec, if_neg h5, Wy3CookerProfile.is_valid,
          hbeq, Bool.not_false, if_true, if_neg hcs]
    rw [hred]
    by_cases hcs : bs.drop (bs.length - 2) = calc_checksum (bs.take (bs.length - 2))
    · simp [hcs, h5]
    · simp [hcs, h5]

/-- C3 witness: the amended characterization evaluated on the input
`"000000"`. -/
theorem wy3_parse_error_cases_witness :
    ((parseProfile "000000" = .invalidProfile) ↔ ("000000" : String).length < 5) ∧
    (5 ≤ ("000000" : String).length →
      ((parseProfile "000000" = .checksumError) ↔
        ([0, 0, 0] : List Nat).drop (([0, 0, 0] : List Nat).length - 2) ≠
          calc_checksum (([0, 0, 0] : List Nat).take (([0, 0, 0] : List Nat).length - 2))) ∧
      ((parseProfile "000000" =
          .ok { profile_bytes := ([0, 0, 0] : List Nat).take (([0, 0, 0] : List Nat).length - 2),
                checksum := ([0, 0, 0] : List Nat).drop (([0, 0, 0] : List Nat).length - 2) }) ↔
        ([0, 0, 0] : List Nat).drop (([0, 0, 0] : List Nat).length - 2) =
          calc_checksum (([0, 0, 0] : List Nat).take (([0, 0, 0] : List Nat).length - 2)))) :=
  wy3_parse_error_cases "000000" [0, 0, 0] (by decide)

set_option maxRecDepth 100000 in
/-- C4 counterexample: on a valid profile whose max cook time is 15555
minutes (bytes 10/11 both 0xFF), `set_duration 15555` clamps to 15555
but stores `(15555 / 60) & 0xFF = 3` in the hours byte, so the stored
duration reads back as 195, not the clamped value. -/
theorem wy3_set_duration_overflow :
    bigMaxProfile.wf ∧ bigMaxProfile.is_valid = true ∧
      bigMaxProfile.is_can_set_duration = true ∧
      (max (bigMaxProfile.get_cook_time_min : Int)
        (min (bigMaxProfile.get_cook_time_max : Int) 15555)).toNat = 15555 ∧
      (bigMaxProfile.set_duration 15555).get_duration = 195 ∧ (195 : Nat) ≠ 15555 := by
  decide

/-- C4 amended: on a well-formed valid profile with can-set-duration,
and with max cook time below 15360 minutes (so the clamped hours fit
one byte — above that the source's `& 0xFF` truncates the hours),
`set_duration m` stores the value clamped to `[min, max]` as hours at
byte 8 and minutes-remainder at byte 9, and the duration getter reads
back exactly the clamped value. -/
theorem wy3_set_duration_clamps (p : Wy3CookerProfile) (m : Int) (hwf : p.wf)
    (hcan : p.is_can_set_duration = true) (hmax : p.get_cook_time_max < 15360) :
    (p.set_duration m).get_duration =
      (max (p.get_cook_time_min : Int) (min (p.get_cook_time_max : Int) m)).toNat ∧
    (p.set_duration m).byteAt 8 =
      (max (p.get_cook_time_min : Int) (min (p.get_cook_time_max : Int) m)).toNat / 60 ∧
    (p.set_duration m).byteAt 9 =
      (max (p.get_cook_time_min : Int) (min (p.get_cook_time_max : Int) m)).toNat % 60 := by
  set M := (max (p.get_cook_time_min : Int) (min (p.get_cook_time_max : Int) m)).toNat
    with hM
  have hminmax : p.get_cook_time_min < p.get_cook_time_max := by
    have h := hcan
    simp only [Wy3CookerProfile.is_can_set_duration, decide_eq_true_eq] at h
    exact h
  have hMle : M ≤ p.get_cook_time_max := by
    rw [hM]
    apply Int.toNat_le.mpr
    apply max_le
    · exact_mod_cast Nat.le_of_lt hminmax
    · exact min_le_left _ _
  have hdiv : M / 60 < 256 := by omega
  have hmask : (M / 60) &&& 0xFF = M / 60 := by
    have e : (0xFF : Nat) = 2 ^ 8 - 1 := by norm_num
    rw [e, Nat.and_pow_two_sub_one_eq_mod]
    exact Nat.mod_eq_of_lt (by norm_num; omega)
  have hq : p.set_duration m = (p.setByte 8 ((M / 60) &&& 0xFF)).setByte 9 (M % 60) := by
    simp only [Wy3CookerProfile.set_duration, hcan, Bool.not_true, Bool.false_eq_true,
      if_false, ← hM]
  have hlen8 : 8 < p.profile_bytes.length := by rw [hwf.1]; omega
  have hlen9 : 9 < (p.setByte 8 ((M / 60) &&& 0xFF)).profile_bytes.length := by
    rw [Wy3CookerProfile.length_setByte, hwf.1]
    omega
  have hb9 : (p.set_duration m).byteAt 9 = M % 60 := by
    rw [hq]
    exact Wy3CookerProfile.byteAt_setByte_self _ _ hlen9
  have hb8 : (p.set_duration m).byteAt 8 = M / 60 := by
    rw [hq, Wy3CookerProfile.byteAt_setByte_ne _ _ (by omega),
      Wy3CookerProfile.byteAt_setByte_self _ _ hlen8, hmask]
  refine ⟨?_, hb8, hb9⟩
  rw [Wy3CookerProfile.get_duration, hb8, hb9]
  omega

set_option maxRecDepth 100000 in
/-- C4 witness: with min cook time 10 and max cook time 60,
`set_duration` stores 10 for a request of 5, 60 for 90, and 30 for
30. -/
theorem wy3_set_duration_clamps_witness :
    (sampleProfile.set_duration 5).get_duration =
      (max (sampleProfile.get_cook_time_min : Int)
        (min (sampleProfile.get_cook_time_max : Int) 5)).toNat ∧
    (sampleProfile.set_duration 90).get_duration =
      (max (sampleProfile.get_cook_time_min : Int)
        (min (sampleProfile.get_cook_time_max : Int) 90)).toNat ∧
    (sampleProfile.set_duration 30).get_duration =
      (max (sampleProfile.get_cook_time_min : Int)
        (min (sampleProfile.get_cook_time_max : Int) 30)).toNat ∧
    (max (sampleProfile.get_cook_time_min : Int)
      (min (sampleProfile.get_cook_time_max : Int) 5)).toNat = 10 ∧
    (max (sampleProfile.get_cook_time_min : Int)
      (min (sampleProfile.get_cook_time_max : Int) 90)).toNat = 60 ∧
    (max (sampleProfile.get_cook_time_min : Int)
      (min (sampleProfile.get_cook_time_max : Int) 30)).toNat = 30 :=
  ⟨(wy3_set_duration_clamps sampleProfile 5 (by decide) (by decide) (by decide)).1,
   (wy3_set_duration_clamps sampleProfile 90 (by decide) (by decide) (by decide)).1,
   (wy3_set_duration_clamps sampleProfile 30 (by decide) (by decide) (by decide)).1,
   by decide, by decide, by decide⟩

/-- C5.  Every capability-gated mutator is a silent no-op when its
capability predicate is false: no error, every payload byte unchanged.
In particular a clear 0x40 flag bit leaves `set_schedule_duration` with
no effect at all (bytes 14/15 and the schedule-enabled flag
included). -/
theorem wy3_capability_noop (p : Wy3CookerProfile) (m : Int) (d r : Nat) (e : Bool)
    (t : Int) :
    (p.is_can_set_duration = false → p.set_duration m = p) ∧
    (p.is_can_schedule = false → p.set_schedule_duration d = p) ∧
    (p.is_can_set_auto_keep_warm = false → p.set_auto_keep_warm e = p) ∧
    (p.is_can_choose_rice = false → p.set_rice_id r = p) ∧
    (p.is_can_config_taste = false → p.set_taste t = some p) ∧
    (p.byteAt 7 &&& 0x40 = 0 → p.set_schedule_duration d = p) := by
  refine ⟨?_, ?_, ?_, ?_, ?_, ?_⟩ <;> intro h
  · simp [Wy3CookerProfile.set_duration, h]
  · simp [Wy3CookerProfile.set_schedule_duration, h]
  · simp [Wy3CookerProfile.set_auto_keep_warm, h]
  · simp [Wy3CookerProfile.set_rice_id, h]
  · simp [Wy3CookerProfile.set_taste, h]
  · simp [Wy3CookerProfile.set_schedule_duration, Wy3CookerProfile.is_can_schedule, h]

set_option maxRecDepth 100000 in
/-- C5 witness: on a valid profile with flag byte 0, menu id 9 and
max = min cook time, all five gated mutators leave the profile
untouched and raise nothing. -/
theorem wy3_capability_noop_witness :
    (noCapProfile.set_duration 45 = noCapProfile) ∧
    (noCapProfile.set_schedule_duration 45 = noCapProfile) ∧
    (noCapProfile.set_auto_keep_warm true = noCapProfile) ∧
    (noCapProfile.set_rice_id 3 = noCapProfile) ∧
    (noCapProfile.set_taste 1 = some noCapProfile) ∧
    (noCapProfile.set_schedule_duration 500 = noCapProfile) :=
  ⟨(wy3_capability_noop noCapProfile 45 45 3 true 1).1 (by decide),
   (wy3_capability_noop noCapProfile 45 45 3 true 1).2.1 (by decide),
   (wy3_capability_noop noCapProfile 45 45 3 true 1).2.2.1 (by decide),
   (wy3_capability_noop noCapProfile 45 45 3 true 1).2.2.2.1 (by decide),
   (wy3_capability_noop noCapProfile 45 45 3 true 1).2.2.2.2.1 (by decide),
   (wy3_capability_noop noCapProfile 45 500 3 true 1).2.2.2.2.2 (by decide)⟩

/-- C6.  On a well-formed profile with menu id 1 (taste configurable),
`set_taste` raises the validation error for any index outside
`{0, 1, 2}` — leaving the payload untouched, since the raise precedes
the write — while `set_taste 1` succeeds and the taste getter then
reads 1. -/
theorem wy3_set_taste_validates (p : Wy3CookerProfile) (i : Int) (hwf : p.wf)
    (hmenu : p.get_menu_id = 1) (hi : ¬(i = 0 ∨ i = 1 ∨ i = 2)) :
    p.set_taste i = none ∧
    ∃ q, p.set_taste 1 = some q ∧ q.get_taste = 1 := by
  have hcan : p.is_can_config_taste = true := by
    simp [Wy3CookerProfile.is_can_config_taste, hmenu]
  constructor
  · simp [Wy3CookerProfile.set_taste, hcan, hi]
  · refine ⟨p.setByte 19 1, ?_, ?_⟩
    · simp [Wy3CookerProfile.set_taste, hcan]
    · unfold Wy3CookerProfile.get_taste
      exact p.byteAt_setByte_self 1 (by rw [hwf.1]; omega)

set_option maxRecDepth 100000 in
/-- C6 witness: on a concrete valid menu-1 profile, `set_taste 3`
errors and `set_taste 1` stores 1. -/
theorem wy3_set_taste_validates_witness :
    sampleProfile.set_taste 3 = none ∧
    ∃ q, sampleProfile.set_taste 1 = some q ∧ q.get_taste = 1 :=
  wy3_set_taste_validates sampleProfile 3 (by decide) (by decide) (by decide)

/-- C7.  On hex-digit input the temperature decoder is total: the
`"0000"` sentinel gives the empty sample list, any other even-length
input decodes one byte per digit pair in input order, and odd-length
input degrades to the empty list without an error. -/
theorem wy3_temperature_decode (s : String) (hhex : ∀ c ∈ s.data, (hexDigit c).isSome) :
    (TemperatureHistory.temperatures s).isSome ∧
    (s = "0000" → TemperatureHistory.temperatures s = some []) ∧
    (s ≠ "0000" → s.length % 2 = 0 → TemperatureHistory.temperatures s = hexPairs s.data) ∧
    (s.length % 2 ≠ 0 → TemperatureHistory.temperatures s = some []) := by
  by_cases h0 : s = "0000"
  · subst h0
    exact ⟨by decide, fun _ => by decide, fun hne _ => absurd rfl hne,
      fun hodd => absurd (by decide) hodd⟩
  · by_cases heven : s.length % 2 = 0
    · have htot : (hexPairs s.data).isSome := by
        refine hexPairs_total s.data hhex ?_
        rw [← string_length_data]
        exact heven
      have hval : TemperatureHistory.temperatures s = hexPairs s.data := by
        unfold TemperatureHistory.temperatures
        rw [if_neg h0, if_pos heven]
      exact ⟨by rw [hval]; exact htot, fun h => absurd h h0, fun _ _ => hval,
        fun hodd => absurd heven hodd⟩
    · have hval : TemperatureHistory.temperatures s = some [] := by
        unfold TemperatureHistory.temperatures
        rw [if_neg h0, if_neg heven]
      exact ⟨by rw [hval]; rfl, fun h => absurd h h0, fun _ he => absurd he heven,
        fun _ => hval⟩

set_option maxRecDepth 100000 in
/-- C7 witness: the decoder evaluated on the spec's example input
`"161515161c"`. -/
theorem wy3_temperature_decode_witness :
    (TemperatureHistory.temperatures "161515161c").isSome ∧
    (("161515161c" : String) = "0000" →
      TemperatureHistory.temperatures "161515161c" = some []) ∧
    (("161515161c" : String) ≠ "0000" → ("161515161c" : String).length % 2 = 0 →
      TemperatureHistory.temperatures "161515161c" =
        hexPairs ("161515161c" : String).data) ∧
    (("161515161c" : String).length % 2 ≠ 0 →
      TemperatureHistory.temperatures "161515161c" = some []) :=
  wy3_temperature_decode "161515161c" (by decide)

set_option maxRecDepth 100000 in
/-- Concrete decoder outputs: the sentinel, an odd-length input, and
the spec's example `"161515161c"` ↦ `[22, 21, 21, 22, 28]`. -/
theorem temperature_decode_examples :
    TemperatureHistory.temperatures "0000" = some [] ∧
    TemperatureHistory.temperatures "16151" = some [] ∧
    TemperatureHistory.temperatures "161515161c" = some [22, 21, 21, 22, 28] := by
  decide

/-- C8 counterexample: `duration` returns `cook-total-time` unchanged —
with raw value 120 it returns 120, not the claimed conversion
`120 / 60 = 2` to minutes. -/
theorem wy3_status_duration_not_minutes :
    CookerStatus.duration 120 = 120 ∧ Int.tdiv 120 60 = 2 ∧
      CookerStatus.duration 120 ≠ Int.tdiv 120 60 := by
  decide

/-- Truncated division by 60 is negative exactly below -60. -/
theorem tdiv_60_neg_iff (q : Int) : q.tdiv 60 < 0 ↔ q ≤ -60 := by
  by_cases hq : 0 ≤ q
  · rw [Int.tdiv_eq_ediv hq (by norm_num)]
    constructor
    · intro h
      exfalso
      have := Int.ediv_nonneg hq (by norm_num : (0 : Int) ≤ 60)
      omega
    · intro h
      omega
  · push_neg at hq
    have h1 : q.tdiv 60 = -((-q) / 60) := by
      conv_lhs => rw [show q = -(-q) by ring]
      rw [Int.neg_tdiv, Int.tdiv_eq_ediv (by omega) (by norm_num)]
    rw [h1]
    omega

/-- C8 amended: `remaining` and `cooking_delayed` convert seconds to
minutes dividing by 60 with truncation toward zero (`int(x / 60)`), and
`cooking_delayed` is the absent value exactly when the converted delay
is negative, i.e. when the seconds value is at most -60; `duration`
returns the raw `cook-total-time` value unconverted. -/
theorem wy3_status_time_accessors (t q d : Int) (ht : 0 ≤ t) :
    (60 * CookerStatus.remaining t ≤ t ∧ t < 60 * CookerStatus.remaining t + 60) ∧
    (CookerStatus.cooking_delayed q = none ↔ q ≤ -60) ∧
    CookerStatus.duration d = d := by
  refine ⟨?_, ?_, rfl⟩
  · unfold CookerStatus.remaining
    rw [Int.tdiv_eq_ediv ht (by norm_num)]
    omega
  · unfold CookerStatus.cooking_delayed
    rw [← tdiv_60_neg_iff]
    show (if 0 ≤ q.tdiv 60 then some (q.tdiv 60) else none) = none ↔ q.tdiv 60 < 0
    by_cases hc : 0 ≤ q.tdiv 60
    · rw [if_pos hc]
      simp
      omega
    · rw [if_neg hc]
      simp
      omega

/-- C8 witness: the amended accessors at 90, -60 and 120 seconds. -/
theorem wy3_status_time_accessors_witness :
    (60 * CookerStatus.remaining 90 ≤ 90 ∧
      (90 : Int) < 60 * CookerStatus.remaining 90 + 60) ∧
    (CookerStatus.cooking_delayed (-60) = none ↔ (-60 : Int) ≤ -60) ∧
    CookerStatus.duration 120 = 120 :=
  wy3_status_time_accessors 90 (-60) 120 (by decide)

set_option maxRecDepth 100000 in
/-- C9 counterexample: with can-schedule set, `set_schedule_duration
7680` has hours part 7680 / 60 = 128, which does not fit the low 7 bits
of byte 14: the stored low 7 bits read 0, not the hours part. -/
theorem wy3_schedule_hours_overflow :
    sampleProfile.is_valid = true ∧ sampleProfile.is_can_schedule = true ∧
      (7680 : Nat) / 60 = 128 ∧
      (sampleProfile.set_schedule_duration 7680).byteAt 14 &&& 0x7F = 0 ∧
      (0 : Nat) ≠ 128 := by
  decide

/-- C9 amended: on a well-formed profile with can-schedule, and with
the minute count below 7680 (so the hours part fits 7 bits — at 7680
and above the hours overflow into the flag bit and the stored low 7
bits are the hours modulo 128), `set_schedule_duration m` stores the
hours part in the low 7 bits of byte 14 and the minutes remainder in
the low 7 bits of byte 15, preserves the auto-keep-warm bit 0x80 of
byte 15, and sets the schedule-enabled flag as a side effect. -/
theorem wy3_schedule_duration_stores (p : Wy3CookerProfile) (m : Nat) (hwf : p.wf)
    (hcan : p.is_can_schedule = true) (hm : m < 7680) :
    ((p.set_schedule_duration m).byteAt 14 &&& 0x7F = m / 60) ∧
    ((p.set_schedule_duration m).get_schedule_enabled = true) ∧
    ((p.set_schedule_duration m).byteAt 15 &&& 0x7F = m % 60) ∧
    ((p.set_schedule_duration m).byteAt 15 &&& 0x80 = p.byteAt 15 &&& 0x80) := by
  have d80_7F : (0x80 : Nat) &&& 0x7F = 0 := by decide
  have dFF_7F : (0xFF : Nat) &&& 0x7F = 0x7F := by decide
  have d80_80 : (0x80 : Nat) &&& 0x80 = 0x80 := by decide
  have dFF_80 : (0xFF : Nat) &&& 0x80 = 0x80 := by decide
  have hm60 : m / 60 < 128 := by omega
  have hmod60 : (m / 60) &&& 0x7F = m / 60 := by
    have e : (0x7F : Nat) = 2 ^ 7 - 1 := by norm_num
    rw [e, Nat.and_pow_two_sub_one_eq_mod]
    exact Nat.mod_eq_of_lt (lt_of_lt_of_le hm60 (by norm_num))
  have hmod60b : (m % 60) &&& 0x7F = m % 60 := by
    have e : (0x7F : Nat) = 2 ^ 7 - 1 := by norm_num
    rw [e, Nat.and_pow_two_sub_one_eq_mod]
    exact Nat.mod_eq_of_lt (by omega)
  have hm80 : (m % 60) &&& 0x80 = 0 := by
    have e : (0x80 : Nat) = 2 ^ 7 := by norm_num
    rw [e]
    exact and_two_pow_eq_zero_of_lt (by norm_num; omega)
  set b14 := p.byteAt 14 with hb14
  set b15 := p.byteAt 15 with hb15
  set v14 := (b14 &&& 0x80) ||| ((m / 60) &&& 0xFF) with hv14
  set p1 := p.setByte 14 v14 with hp1
  have hp1_15 : p1.byteAt 15 = b15 := p.byteAt_setByte_ne v14 (by omega)
  set v15 := ((m % 60 ||| (b15 &&& 0x80)) &&& 0xFF) with hv15
  set p2 := p1.setByte 15 v15 with hp2
  have hp2_14 : p2.byteAt 14 = v14 := by
    rw [hp2, p1.byteAt_setByte_ne v15 (by omega), hp1]
    exact p.byteAt_setByte_self v14 (by rw [hwf.1]; omega)
  have hq : p.set_schedule_duration m = p2.setByte 14 (v14 ||| 0x80) := by
    simp only [Wy3CookerProfile.set_schedule_duration, hcan, Bool.not_true,
      Bool.false_eq_true, if_false, Wy3CookerProfile.set_schedule_enabled, if_true,
      ← hb14, ← hv14, ← hp1, hp1_15, ← hv15, ← hp2, hp2_14]
  have hq14 : (p.set_schedule_duration m).byteAt 14 = v14 ||| 0x80 := by
    rw [hq]
    refine p2.byteAt_setByte_self _ ?_
    rw [hp2, Wy3CookerProfile.length_setByte, hp1, Wy3CookerProfile.length_setByte, hwf.1]
    omega
  have hq15 : (p.set_schedule_duration m).byteAt 15 = v15 := by
    rw [hq, p2.byteAt_setByte_ne _ (by omega), hp2]
    refine p1.byteAt_setByte_self _ ?_
    rw [hp1, Wy3CookerProfile.length_setByte, hwf.1]
    omega
  refine ⟨?_, ?_, ?_, ?_⟩
  · rw [hq14, hv14]
    calc (((b14 &&& 0x80) ||| ((m / 60) &&& 0xFF)) ||| 0x80) &&& 0x7F
        = (((b14 &&& 0x80) &&& 0x7F) ||| (((m / 60) &&& 0xFF) &&& 0x7F)) |||
            ((0x80 : Nat) &&& 0x7F) := by
          rw [Nat.and_distrib_right, Nat.and_distrib_right]
      _ = ((b14 &&& ((0x80 : Nat) &&& 0x7F)) ||| ((m / 60) &&& ((0xFF : Nat) &&& 0x7F))) |||
            ((0x80 : Nat) &&& 0x7F) := by
          rw [Nat.and_assoc, Nat.and_assoc]
      _ = ((b14 &&& 0) ||| ((m / 60) &&& 0x7F)) ||| 0 := by rw [d80_7F, dFF_7F]
      _ = m / 60 := by rw [Nat.and_zero, Nat.zero_or, Nat.or_zero, hmod60]
  · rw [Wy3CookerProfile.get_schedule_enabled, hq14]
    have : (v14 ||| 0x80) &&& 0x80 = 0x80 := by
      rw [Nat.and_distrib_right, d80_80, and_or_absorb]
    rw [this]
    rfl
  · rw [hq15, hv15]
    calc ((m % 60 ||| (b15 &&& 0x80)) &&& 0xFF) &&& 0x7F
        = (m % 60 ||| (b15 &&& 0x80)) &&& ((0xFF : Nat) &&& 0x7F) := by
          rw [Nat.and_assoc]
      _ = ((m % 60) &&& 0x7F) ||| ((b15 &&& 0x80) &&& 0x7F) := by
          rw [dFF_7F, Nat.and_distrib_right]
      _ = (m % 60) ||| (b15 &&& ((0x80 : Nat) &&& 0x7F)) := by
          rw [hmod60b, Nat.and_assoc]
      _ = m % 60 := by rw [d80_7F, Nat.and_zero, Nat.or_zero]
  · rw [hq15, hv15]
    calc ((m % 60 ||| (b15 &&& 0x80)) &&& 0xFF) &&& 0x80
        = (m % 60 ||| (b15 &&& 0x80)) &&& ((0xFF : Nat) &&& 0x80) := by
          rw [Nat.and_assoc]
      _ = ((m % 60) &&& 0x80) ||| ((b15 &&& 0x80) &&& 0x80) := by
          rw [dFF_80, Nat.and_distrib_right]
      _ = 0 ||| (b15 &&& ((0x80 : Nat) &&& 0x80)) := by rw [hm80, Nat.and_assoc]
      _ = b15 &&& 0x80 := by rw [Nat.zero_or, d80_80]

set_option maxRecDepth 100000 in
/-- C9 witness: scheduling 125 minutes on a concrete valid profile with
can-schedule stores hours 2 and minutes 5 and raises the
schedule-enabled flag while keeping the auto-keep-warm bit. -/
theorem wy3_schedule_duration_stores_witness :
    ((sampleProfile.set_schedule_duration 125).byteAt 14 &&& 0x7F = 125 / 60) ∧
    ((sampleProfile.set_schedule_duration 125).get_schedule_enabled = true) ∧
    ((sampleProfile.set_schedule_duration 125).byteAt 15 &&& 0x7F = 125 % 60) ∧
    ((sampleProfile.set_schedule_duration 125).byteAt 15 &&& 0x80 =
      sampleProfile.byteAt 15 &&& 0x80) :=
  wy3_schedule_duration_stores sampleProfile 125 (by decide) (by decide) (by decide)

/-- Constructing with `auto_keep_warm=False` takes exactly the same
path as constructing with the argument absent: the setter only runs on
the literal `True`. -/
theorem mkProfile_akw_false_eq (s : String) :
    mkProfile s none none (some false) none = parseProfile s := by
  unfold parseProfile mkProfile
  split
  · rfl
  · cases hdec : hexDecode s with
    | none => rfl
    | some bs =>
      dsimp only
      split
      · rfl
      · simp

/-- C10.  Construction with `auto_keep_warm=False` never clears the
auto-keep-warm bit: the resulting profile is exactly the plain parse of
the input, whose payload (byte 15 and its 0x80 bit included) comes
verbatim from the input hex. -/
theorem wy3_ctor_akw_false_preserves (s : String) (p : Wy3CookerProfile)
    (hp : parseProfile s = .ok p) :
    mkProfile s none none (some false) none = .ok p ∧
    ∃ bs, hexDecode s = some bs ∧ p.profile_bytes = bs.take (bs.length - 2) := by
  refine ⟨by rw [mkProfile_akw_false_eq]; exact hp, ?_⟩
  obtain ⟨bs, hdec, -, -, hpb, -, -⟩ := parseProfile_ok_elim hp
  exact ⟨bs, hdec, hpb⟩

set_option maxRecDepth 100000 in
/-- C10 witness: constructing the concrete profile with
`auto_keep_warm=False` yields the plain parse result unchanged. -/
theorem wy3_ctor_akw_false_preserves_witness :
    mkProfile "0212010000000160001e0100000a00000000000181a1" none none (some false) none =
      .ok sampleProfile ∧
    ∃ bs, hexDecode "0212010000000160001e0100000a00000000000181a1" = some bs ∧
      sampleProfile.profile_bytes = bs.take (bs.length - 2) :=
  wy3_ctor_akw_false_preserves "0212010000000160001e0100000a00000000000181a1"
    sampleProfile (by decide)

end CookerWy3
